import Mathlib

/-!
Verification of the stopwatch widget (`script.js`).

The development shallowly embeds the stopwatch's mutable module state
(`intervalId`, `startTimestamp`, `elapsedMs`, `laps`), the click handlers of
the four buttons, the time formatter `formatTime`, and the persistence pair
`saveState` / `loadState`.

Modelling conventions:
  * `performance.now()` readings and millisecond amounts are `Int` values;
    every handler takes the clock reading it observes as an argument.
  * `intervalId` is `Option Nat` (`none` = JavaScript `null`); browsers return
    nonzero interval handles, so the JavaScript truthiness test
    `if (intervalId)` is modelled by `Option.isSome`.
  * The JSON layer is modelled by the value type `JSVal`; the store holds the
    parsed value (i.e. `JSON.parse ∘ JSON.stringify` is the identity on the
    payloads involved).  `loadState`'s `try/catch` is modelled by making the
    function total: every branch that would throw in JavaScript (missing raw
    value, parse failure, property access on `null`) is an explicit branch
    yielding whatever the globals held at that point, i.e. their initial
    defaults.
-/

namespace Stopwatch

/-- A JavaScript value, as far as the persisted payload is concerned. -/
inductive JSVal where
  | undefined : JSVal
  | null : JSVal
  | num : Int → JSVal
  | str : String → JSVal
  | bool : Bool → JSVal
  | arr : List JSVal → JSVal
  | obj : List (String × JSVal) → JSVal
deriving Repr

/-- JavaScript truthiness for the fragment of values we model
(`NaN` does not arise because numbers are integers here). -/
def truthy : JSVal → Bool
  | .undefined => false
  | .null => false
  | .num n => n != 0
  | .str s => s != ""
  | .bool b => b
  | .arr _ => true
  | .obj _ => true

/-- `a || b` in JavaScript. -/
def jsOr (a b : JSVal) : JSVal := if truthy a then a else b

/-- `Array.isArray`. -/
def isArray : JSVal → Bool
  | .arr _ => true
  | _ => false

/-- Property lookup `v.k` on values where it does not throw: on objects it
returns the first binding of `k` (or `undefined`), on other non-nullish
values it returns `undefined`.  (`loadState` below never calls this on
`null`/`undefined`, whose property access throws; that case is a separate
branch there.) -/
def getField (v : JSVal) (k : String) : JSVal :=
  match v with
  | .obj fields =>
    match fields.find? (fun p => p.1 = k) with
    | some p => p.2
    | none => .undefined
  | _ => .undefined

/-- The keys of an object value (empty for non-objects). -/
def keysOf : JSVal → List String
  | .obj fields => fields.map Prod.fst
  | _ => []

/-- `String.prototype.padStart(len, c)`: prepend copies of `c` until the
length is at least `len`. -/
def padStart (s : String) (len : Nat) (c : Char) : String :=
  String.mk (List.replicate (len - s.length) c) ++ s

/-- The helper `two = n => String(n).padStart(2,'0')` of `formatTime`. -/
def two (n : Nat) : String := padStart (Nat.repr n) 2 '0'

/-- `formatTime(totalSeconds)` from `script.js`: split into hours, minutes,
seconds and zero-pad each to (at least) two digits. -/
def formatTime (totalSeconds : Nat) : String :=
  two (totalSeconds / 3600) ++ ":" ++ two (totalSeconds % 3600 / 60) ++ ":" ++
    two (totalSeconds % 60)

/-- One recorded lap: `{ timeMs: currentElapsedMs, label: formatted }`. -/
structure Lap where
  timeMs : Int
  label : String
deriving Repr, DecidableEq

/-- The stopwatch's mutable module state. -/
structure SW where
  intervalId : Option Nat
  startTimestamp : Int
  elapsedMs : Int
  laps : List Lap
deriving Repr, DecidableEq

/-- The initial module state (lines 28–31 of `script.js`). -/
def initSW : SW := { intervalId := none, startTimestamp := 0, elapsedMs := 0, laps := [] }

/-- `currentElapsedMs` as computed by `updateDisplay` and the lap handler at
clock reading `t`: `elapsedMs + (intervalId ? (now - startTimestamp) : 0)`. -/
def currentElapsedMs (s : SW) (t : Int) : Int :=
  s.elapsedMs + (if s.intervalId.isSome then t - s.startTimestamp else 0)

/-- The `startBtn` click handler at clock reading `t`; `h` is the handle the
browser's `setInterval` returns.  Guarded: a second timer is never started. -/
def startClick (t : Int) (h : Nat) (s : SW) : SW :=
  if s.intervalId.isSome then s
  else { s with startTimestamp := t, intervalId := some h }

/-- The `stopBtn` click handler at clock reading `t`: fold the open segment
into `elapsedMs` and clear the interval; no-op when already stopped. -/
def stopClick (t : Int) (s : SW) : SW :=
  if s.intervalId.isSome then
    { s with elapsedMs := s.elapsedMs + (t - s.startTimestamp), intervalId := none }
  else s

/-- The `resetBtn` click handler: clear the interval (if any), zero the
accumulator and anchor, drop all laps. -/
def resetClick (_s : SW) : SW :=
  { intervalId := none, startTimestamp := 0, elapsedMs := 0, laps := [] }

/-- The `lapBtn` click handler at clock reading `t`: snapshot
`currentElapsedMs`, format its whole seconds, prepend the lap (newest first).
Note the handler itself has no Running guard; only the button's `disabled`
flag prevents it from firing while stopped. -/
def lapClick (t : Int) (s : SW) : SW :=
  let cur := currentElapsedMs s t
  { s with laps := { timeMs := cur, label := formatTime ((cur.fdiv 1000).toNat) } :: s.laps }

/-- One lap as serialised by `saveState`: `{ timeMs: ..., label: ... }`. -/
def lapToJS (l : Lap) : JSVal :=
  .obj [("timeMs", .num l.timeMs), ("label", .str l.label)]

/-- The payload `saveState` writes to the store at wall-clock time `savedAt`:
`{ elapsedMs, laps, savedAt: Date.now() }`. -/
def saveState (s : SW) (savedAt : Int) : JSVal :=
  .obj [("elapsedMs", .num s.elapsedMs), ("laps", .arr (s.laps.map lapToJS)),
        ("savedAt", .num savedAt)]

/-- What `localStorage.getItem` + `JSON.parse` yields: no raw string at the
key, a raw string that fails to parse, or a parsed value. -/
inductive StoredRaw where
  | absent : StoredRaw
  | unparseable : StoredRaw
  | parsed : JSVal → StoredRaw

/-- `loadState` from `script.js`, as the pair of globals `(elapsedMs, laps)`
it leaves behind (both start at their defaults `0` and `[]`).  Absence
returns early; a parse failure throws and is caught; property access on a
nullish parsed value throws and is caught; otherwise
`elapsedMs = data.elapsedMs || 0` and
`laps = Array.isArray(data.laps) ? data.laps : []`. -/
def loadState : StoredRaw → JSVal × JSVal
  | .absent => (.num 0, .arr [])
  | .unparseable => (.num 0, .arr [])
  | .parsed v =>
    match v with
    | .null => (.num 0, .arr [])
    | .undefined => (.num 0, .arr [])
    | _ =>
      (jsOr (getField v "elapsedMs") (.num 0),
       if isArray (getField v "laps") then getField v "laps" else .arr [])

/-- The globals after the `init()` IIFE ran `loadState()`: `loadState` only
ever assigns `elapsedMs` and `laps`; `intervalId` and `startTimestamp` keep
their initial values, so the stopwatch always starts out Stopped. -/
structure LoadedGlobals where
  elapsedMs : JSVal
  laps : JSVal
  intervalId : Option Nat
  startTimestamp : Int
deriving Repr

/-- Module initialisation: declare the globals, then run `loadState`. -/
def initGlobals (r : StoredRaw) : LoadedGlobals :=
  { elapsedMs := (loadState r).1, laps := (loadState r).2,
    intervalId := none, startTimestamp := 0 }

/-- An operation of the Clock/Accumulator interface exercised by the
invariant claims: `start` (with the interval handle the browser hands back),
`stop`, and the pure `query`. -/
inductive Op where
  | start : Nat → Op
  | stop : Op
  | query : Op
deriving Repr

/-- Run one operation at clock reading `t`. -/
def stepOp (op : Op) (t : Int) (s : SW) : SW :=
  match op with
  | .start h => startClick t h s
  | .stop => stopClick t s
  | .query => s

/-- Run a timestamped sequence of operations, sampling `currentElapsedMs`
at each operation's instant. -/
def traceElapsed : List (Op × Int) → SW → List Int
  | [], _ => []
  | (op, t) :: rest, s =>
    currentElapsedMs (stepOp op t s) t :: traceElapsed rest (stepOp op t s)

/-- A sample operation sequence with non-decreasing clock readings. -/
def demoOps : List (Op × Int) :=
  [(.start 1, 0), (.query, 5), (.stop, 7), (.query, 9), (.start 2, 10), (.stop, 12)]

/-- A sample Running state. -/
def runningS : SW :=
  { intervalId := some 1, startTimestamp := 5, elapsedMs := 100, laps := [] }

/-- A sample Stopped state with accumulated time. -/
def stoppedS : SW :=
  { intervalId := none, startTimestamp := 0, elapsedMs := 5000, laps := [] }

/-- A sample Stopped state with one recorded lap. -/
def savedDemo : SW :=
  { intervalId := none, startTimestamp := 0, elapsedMs := 1000,
    laps := [{ timeMs := 1000, label := "00:00:01" }] }

/-- A parsed payload whose `elapsedMs` field is a truthy non-number. -/
def malformedPayload : JSVal := .obj [("elapsedMs", .str "x"), ("laps", .arr [])]

/-! ## Lemmas about decimal rendering

`String(n)` in JavaScript renders a natural number in decimal, which the
embedding models with `Nat.repr`.  We compute the exact length of that
rendering: one more than `Nat.log 10 n`. -/

theorem toDigitsCore_length_eq :
    ∀ (f n : Nat) (acc : List Char), n < f →
      (Nat.toDigitsCore 10 f n acc).length = Nat.log 10 n + 1 + acc.length := by
  intro f
  induction f with
  | zero => intro n acc h; exact absurd h (Nat.not_lt_zero n)
  | succ f ih =>
    intro n acc h
    by_cases hdiv : n / 10 = 0
    · have hmod := Nat.mod_lt n (show 0 < 10 by norm_num)
      have hdm := Nat.div_add_mod n 10
      have hn : n < 10 := by omega
      simp only [Nat.toDigitsCore, hdiv, if_true]
      rw [Nat.log_eq_zero_iff.mpr (Or.inl hn)]
      simp only [List.length_cons]
      omega
    · have h10 : 10 ≤ n := by
        by_contra hlt
        push_neg at hlt
        exact hdiv (Nat.div_eq_of_lt hlt)
      have hlt' : n / 10 < f := by
        have := Nat.div_lt_self (show 0 < n by omega) (show 1 < 10 by norm_num)
        omega
      simp only [Nat.toDigitsCore, hdiv, if_false]
      rw [ih (n / 10) (Nat.digitChar (n % 10) :: acc) hlt']
      have hlog : Nat.log 10 (n / 10) = Nat.log 10 n - 1 := Nat.log_div_base 10 n
      have hpos : 0 < Nat.log 10 n := Nat.log_pos (by norm_num) h10
      simp only [List.length_cons]
      omega

theorem repr_length_eq (n : Nat) : (Nat.repr n).length = Nat.log 10 n + 1 := by
  have h := toDigitsCore_length_eq (n + 1) n [] (Nat.lt_succ_self n)
  simpa [Nat.repr, Nat.toDigits, List.asString] using h

theorem two_length (n : Nat) : (two n).length = max 2 (Nat.log 10 n + 1) := by
  simp [two, padStart, repr_length_eq]
  omega

/-! ## The Clock/Accumulator invariant

A state is well-formed with respect to a clock reading `t` when the
accumulator is non-negative and, while running, the anchor does not lie in
the future.  The initial state satisfies it, every handler preserves it, and
it forces `currentElapsedMs` to be non-negative and non-decreasing. -/

def InvSW (t : Int) (s : SW) : Prop :=
  0 ≤ s.elapsedMs ∧ (s.intervalId.isSome = true → s.startTimestamp ≤ t)

theorem invSW_mono {t t' : Int} {s : SW} (htt : t ≤ t') (h : InvSW t s) : InvSW t' s :=
  ⟨h.1, fun hrun => le_trans (h.2 hrun) htt⟩

theorem currentElapsedMs_nonneg {t : Int} {s : SW} (h : InvSW t s) :
    0 ≤ currentElapsedMs s t := by
  rcases h with ⟨he, ha⟩
  cases hs : s.intervalId with
  | none => simp [currentElapsedMs, hs]; omega
  | some v =>
    have hanchor : s.startTimestamp ≤ t := ha (by rw [hs]; rfl)
    simp [currentElapsedMs, hs]
    omega

theorem currentElapsedMs_mono {t t' : Int} (s : SW) (htt : t ≤ t') :
    currentElapsedMs s t ≤ currentElapsedMs s t' := by
  cases hs : s.intervalId with
  | none => simp [currentElapsedMs, hs]
  | some v => simp [currentElapsedMs, hs]; omega

theorem stepOp_currentElapsedMs (op : Op) (t : Int) (s : SW) :
    currentElapsedMs (stepOp op t s) t = currentElapsedMs s t := by
  cases op with
  | start h =>
    cases hs : s.intervalId with
    | none => simp [stepOp, startClick, currentElapsedMs, hs]
    | some v => simp [stepOp, startClick, currentElapsedMs, hs]
  | stop =>
    cases hs : s.intervalId with
    | none => simp [stepOp, stopClick, currentElapsedMs, hs]
    | some v => simp [stepOp, stopClick, currentElapsedMs, hs]
  | query => rfl

theorem stepOp_inv {t : Int} {s : SW} (op : Op) (h : InvSW t s) :
    InvSW t (stepOp op t s) := by
  rcases h with ⟨he, ha⟩
  cases op with
  | start hdl =>
    cases hs : s.intervalId with
    | none =>
      refine ⟨?_, ?_⟩ <;> simp [stepOp, startClick, hs, he]
    | some v =>
      refine ⟨?_, ?_⟩ <;> simp [stepOp, startClick, hs, he]
      exact ha (by rw [hs]; rfl)
  | stop =>
    cases hs : s.intervalId with
    | none =>
      refine ⟨?_, ?_⟩ <;> simp [stepOp, stopClick, hs, he]
    | some v =>
      have hanchor : s.startTimestamp ≤ t := ha (by rw [hs]; rfl)
      refine ⟨?_, ?_⟩ <;> simp [stepOp, stopClick, hs]
      omega
  | query => exact ⟨he, ha⟩

theorem traceElapsed_props :
    ∀ (l : List (Op × Int)) (s : SW) (t0 : Int), InvSW t0 s →
      List.Chain' (· ≤ ·) (t0 :: l.map Prod.snd) →
      (∀ x ∈ traceElapsed l s, currentElapsedMs s t0 ≤ x) ∧
      List.Chain' (· ≤ ·) (traceElapsed l s) := by
  intro l
  induction l with
  | nil => intro s t0 _ _; simp [traceElapsed]
  | cons p rest ih =>
    obtain ⟨op, t⟩ := p
    intro s t0 hinv hchain
    rw [List.map_cons] at hchain
    have ht0t : t0 ≤ t := (List.chain'_cons.mp hchain).1
    have hchain2 : List.Chain' (· ≤ ·) (t :: rest.map Prod.snd) :=
      (List.chain'_cons.mp hchain).2
    have hstep : currentElapsedMs (stepOp op t s) t = currentElapsedMs s t :=
      stepOp_currentElapsedMs op t s
    have hmono : currentElapsedMs s t0 ≤ currentElapsedMs s t :=
      currentElapsedMs_mono s ht0t
    have hinvt : InvSW t s := invSW_mono ht0t hinv
    have hinv2 : InvSW t (stepOp op t s) := stepOp_inv op hinvt
    obtain ⟨hall, hchain3⟩ := ih (stepOp op t s) t hinv2 hchain2
    rw [hstep] at hall
    constructor
    · intro x hx
      simp only [traceElapsed] at hx
      rcases List.mem_cons.mp hx with hx | hx
      · rw [hx, hstep]
        exact hmono
      · exact le_trans hmono (hall x hx)
    · show List.Chain' (· ≤ ·)
        (currentElapsedMs (stepOp op t s) t :: traceElapsed rest (stepOp op t s))
      refine List.chain'_cons'.mpr ⟨?_, hchain3⟩
      intro y hy
      rw [hstep]
      exact hall y (List.mem_of_mem_head? hy)

/-! ## Small helper lemmas for the persistence layer -/

theorem jsOr_falsy {a b : JSVal} (h : truthy a = false) : jsOr a b = b := by
  simp [jsOr, h]

theorem ite_not_array {a : JSVal} (h : isArray a = false) :
    (if isArray a then a else JSVal.arr []) = JSVal.arr [] := by
  simp [h]

theorem ite_array_isArray (a : JSVal) :
    isArray (if isArray a then a else JSVal.arr []) = true := by
  cases ha : isArray a
  · simp [ha, isArray]
  · simp [ha]

/-! ## The claims -/

/-- C1: for every sequence of `start`/`stop`/`query` operations whose
monotonic-clock readings are non-decreasing (and non-negative, as
`performance.now()` readings are), the sampled `currentElapsedMs` values are
never negative and non-decreasing across the sequence. -/
theorem c1_elapsed_nonneg_monotone (l : List (Op × Int))
    (hclock : List.Chain' (· ≤ ·) ((0 : Int) :: l.map Prod.snd)) :
    (∀ x ∈ traceElapsed l initSW, 0 ≤ x) ∧
    List.Chain' (· ≤ ·) (traceElapsed l initSW) := by
  have hinv : InvSW 0 initSW := by
    constructor
    · simp [initSW]
    · simp [initSW]
  obtain ⟨h1, h2⟩ := traceElapsed_props l initSW 0 hinv hclock
  refine ⟨fun x hx => ?_, h2⟩
  have h0 : currentElapsedMs initSW 0 = 0 := rfl
  have hx0 := h1 x hx
  rw [h0] at hx0
  exact hx0

/-- Witness for C1 at a concrete operation sequence. -/
theorem c1_elapsed_nonneg_monotone_witness :
    List.Chain' (· ≤ ·) ((0 : Int) :: demoOps.map Prod.snd) ∧
    ((∀ x ∈ traceElapsed demoOps initSW, 0 ≤ x) ∧
     List.Chain' (· ≤ ·) (traceElapsed demoOps initSW)) :=
  ⟨by simp [demoOps, List.chain'_cons], c1_elapsed_nonneg_monotone demoOps
    (by simp [demoOps, List.chain'_cons])⟩

/-- C2 is false on the code: the lap handler has no Running guard, so
invoking it on a Stopped state prepends a lap and the lap sequence changes. -/
theorem c2_lap_stopped_cex : (lapClick 9999 stoppedS).laps ≠ stoppedS.laps := by
  decide

/-- C2 amended: invoking the lap handler while Stopped is not a no-op — it
prepends one lap snapshotting the accumulated milliseconds (all other state
fields are untouched); only the UI's disabled lap button keeps this
unreachable in the browser. -/
theorem c2_lap_stopped_amended (s : SW) (t : Int) (h : s.intervalId = none) :
    lapClick t s =
      { s with laps := { timeMs := s.elapsedMs,
                         label := formatTime ((s.elapsedMs.fdiv 1000).toNat) } :: s.laps } := by
  simp [lapClick, currentElapsedMs, h]

/-- Witness for the amended C2 at a concrete Stopped state. -/
theorem c2_lap_stopped_amended_witness :
    stoppedS.intervalId = none ∧
    lapClick 9999 stoppedS =
      { stoppedS with
        laps := { timeMs := stoppedS.elapsedMs,
                  label := formatTime ((stoppedS.elapsedMs.fdiv 1000).toNat) } ::
          stoppedS.laps } :=
  ⟨rfl, c2_lap_stopped_amended stoppedS 9999 rfl⟩

/-- C3 is false on the code: a concrete persisted snapshot has keys
`elapsedMs`/`laps`/`savedAt` (not `accumulatedMs`), and its lap entries
carry fields `timeMs`/`label` (not `elapsedMs`). -/
theorem c3_snapshot_keys_cex :
    keysOf (saveState savedDemo 42) = ["elapsedMs", "laps", "savedAt"] ∧
    keysOf (saveState savedDemo 42) ≠ ["accumulatedMs", "laps", "savedAt"] ∧
    getField (saveState savedDemo 42) "accumulatedMs" = .undefined ∧
    getField (saveState savedDemo 42) "laps" =
      .arr [.obj [("timeMs", .num 1000), ("label", .str "00:00:01")]] ∧
    getField (.obj [("timeMs", .num 1000), ("label", .str "00:00:01")]) "elapsedMs" =
      .undefined := by
  refine ⟨rfl, ?_, rfl, rfl, rfl⟩
  decide

/-- C3 amended: every persisted snapshot is an object with keys `elapsedMs`
(the accumulated milliseconds), `laps` (the newest-first lap list, each lap
an object with fields `timeMs` and `label`), and `savedAt` (epoch ms). -/
theorem c3_snapshot_shape_amended (s : SW) (t : Int) :
    keysOf (saveState s t) = ["elapsedMs", "laps", "savedAt"] ∧
    getField (saveState s t) "elapsedMs" = .num s.elapsedMs ∧
    getField (saveState s t) "savedAt" = .num t ∧
    getField (saveState s t) "laps" = .arr (s.laps.map lapToJS) ∧
    (s.laps.map fun l => keysOf (lapToJS l)) = s.laps.map (fun _ => ["timeMs", "label"]) ∧
    (s.laps.map fun l => getField (lapToJS l) "timeMs") =
      s.laps.map (fun l => .num l.timeMs) ∧
    (s.laps.map fun l => getField (lapToJS l) "label") =
      s.laps.map (fun l => .str l.label) :=
  ⟨rfl, rfl, rfl, rfl, rfl, rfl, rfl⟩

/-- C4 is false on the code: a payload whose `elapsedMs` field is the truthy
non-number `"x"` does not load as the default state — `data.elapsedMs || 0`
keeps the string. -/
theorem c4_load_malformed_cex :
    loadState (.parsed malformedPayload) ≠ ((.num 0 : JSVal), (.arr [] : JSVal)) := by
  intro hcontra
  have h1 : (loadState (.parsed malformedPayload)).1 = .str "x" := rfl
  rw [hcontra] at h1
  exact JSVal.noConfusion h1

/-- C4 amended: on absence, parse failure, or a nullish parsed payload
`loadState` yields the defaults `(0, [])`; on malformed shapes the fields
fall back independently — `laps` defaults to `[]` whenever the stored field
is not an array, and `accumulatedMs` defaults to `0` whenever the stored
field is falsy, but a truthy non-numeric value is kept verbatim.  No
exception escapes: `loadState` is total (every throwing path of the
JavaScript is a caught branch of the model). -/
theorem c4_load_defaults_amended :
    loadState .absent = (.num 0, .arr []) ∧
    loadState .unparseable = (.num 0, .arr []) ∧
    loadState (.parsed .null) = (.num 0, .arr []) ∧
    (∀ v : JSVal, truthy (getField v "elapsedMs") = false →
      (loadState (.parsed v)).1 = .num 0) ∧
    (∀ v : JSVal, isArray (getField v "laps") = false →
      (loadState (.parsed v)).2 = .arr []) ∧
    (∀ v : JSVal, isArray (loadState (.parsed v)).2 = true) := by
  refine ⟨rfl, rfl, rfl, ?_, ?_, ?_⟩
  · intro v hv
    cases v <;> first | rfl | exact jsOr_falsy hv
  · intro v hv
    cases v <;> first | rfl | exact ite_not_array hv
  · intro v
    cases v <;> first | rfl | exact ite_array_isArray _

/-- Witness for the amended C4 at a concrete malformed payload. -/
theorem c4_load_defaults_amended_witness :
    truthy (getField (.obj [("laps", .num 3)]) "elapsedMs") = false ∧
    (loadState (.parsed (.obj [("laps", .num 3)]))).1 = .num 0 :=
  ⟨rfl, c4_load_defaults_amended.2.2.2.1 (.obj [("laps", .num 3)]) rfl⟩

/-- C5: saving any accumulator state and loading it back reproduces
`elapsedMs` and `laps` exactly, and the loaded state is always Stopped
(neither the running flag nor the run anchor is round-tripped). -/
theorem c5_save_load_roundtrip (s : SW) (t : Int) :
    initGlobals (.parsed (saveState s t)) =
      { elapsedMs := .num s.elapsedMs, laps := .arr (s.laps.map lapToJS),
        intervalId := none, startTimestamp := 0 } := by
  have h1 : (loadState (.parsed (saveState s t))).1 = .num s.elapsedMs := by
    show jsOr (.num s.elapsedMs) (.num 0) = .num s.elapsedMs
    by_cases he : s.elapsedMs = 0
    · rw [he]; rfl
    · simp [jsOr, truthy, he]
  have h2 : (loadState (.parsed (saveState s t))).2 = .arr (s.laps.map lapToJS) := rfl
  simp [initGlobals, h1, h2]

/-- C6: stopping a Running stopwatch and querying at the same clock instant
yields the same elapsed milliseconds as querying just before the stop — the
final segment is counted exactly once. -/
theorem c6_stop_query_no_double_count (s : SW) (t : Int)
    (h : s.intervalId.isSome = true) :
    currentElapsedMs (stopClick t s) t = currentElapsedMs s t := by
  cases hs : s.intervalId with
  | none => rw [hs] at h; exact absurd h (by simp)
  | some v => simp [stopClick, currentElapsedMs, hs]

/-- Witness for C6 at a concrete Running state. -/
theorem c6_stop_query_no_double_count_witness :
    runningS.intervalId.isSome = true ∧
    currentElapsedMs (stopClick 42 runningS) 42 = currentElapsedMs runningS 42 :=
  ⟨rfl, c6_stop_query_no_double_count runningS 42 rfl⟩

/-- C7: `start` is idempotent — on a Running state a second `start` is
ignored and the whole state (anchor, accumulator, interval handle) is
untouched, and starting twice in a row equals starting once. -/
theorem c7_start_idempotent (s : SW) (t t' : Int) (h h' : Nat) :
    (s.intervalId.isSome = true → startClick t h s = s) ∧
    startClick t' h' (startClick t h s) = startClick t h s := by
  constructor
  · intro hrun
    simp [startClick, hrun]
  · cases hs : s.intervalId with
    | none => simp [startClick, hs]
    | some v => simp [startClick, hs]

/-- Witness for C7 at a concrete Running state. -/
theorem c7_start_idempotent_witness :
    runningS.intervalId.isSome = true ∧ startClick 3 7 runningS = runningS :=
  ⟨rfl, (c7_start_idempotent runningS 3 4 7 8).1 rfl⟩

/-- C8: `reset` always yields `currentElapsedMs = 0`, an empty lap sequence,
and the Stopped state, whatever the prior state was. -/
theorem c8_reset_zeroes (s : SW) (t : Int) :
    currentElapsedMs (resetClick s) t = 0 ∧ (resetClick s).laps = [] ∧
    (resetClick s).intervalId = none := by
  refine ⟨?_, rfl, rfl⟩
  simp [resetClick, currentElapsedMs]

/-- C9: `formatTime t` renders `H:M:S` with `H = t / 3600`,
`M = t % 3600 / 60`, `S = t % 60`, each zero-padded to at least two digits,
and the hour field grows beyond two digits exactly when `H` exceeds 99. -/
theorem c9_formatTime_spec (t : Nat) :
    formatTime t = two (t / 3600) ++ ":" ++ two (t % 3600 / 60) ++ ":" ++ two (t % 60) ∧
    2 ≤ (two (t / 3600)).length ∧ 2 ≤ (two (t % 3600 / 60)).length ∧
    2 ≤ (two (t % 60)).length ∧
    (99 < t / 3600 → 2 < (two (t / 3600)).length) := by
  refine ⟨rfl, ?_, ?_, ?_, ?_⟩
  · rw [two_length]; omega
  · rw [two_length]; omega
  · rw [two_length]; omega
  · intro hh
    rw [two_length]
    have h100 : 10 ^ 2 ≤ t / 3600 := by omega
    have hlog := (Nat.pow_le_iff_le_log (by norm_num) (by omega)).mp h100
    omega

/-- Witness for C9 at 100 hours. -/
theorem c9_formatTime_spec_witness :
    99 < 360000 / 3600 ∧ 2 < (two (360000 / 3600)).length :=
  ⟨by decide, (c9_formatTime_spec 360000).2.2.2.2 (by decide)⟩

/-- C10: the lap handler leaves `elapsedMs`, the anchor `startTimestamp` and
the Running/Stopped status unchanged in every state; its only state effect
is to prepend one lap snapshotting `currentElapsedMs` at the call instant. -/
theorem c10_lap_frame (s : SW) (t : Int) :
    (lapClick t s).elapsedMs = s.elapsedMs ∧
    (lapClick t s).startTimestamp = s.startTimestamp ∧
    (lapClick t s).intervalId = s.intervalId ∧
    (lapClick t s).laps =
      { timeMs := currentElapsedMs s t,
        label := formatTime ((currentElapsedMs s t).fdiv 1000).toNat } :: s.laps :=
  ⟨rfl, rfl, rfl, rfl⟩

end Stopwatch
